import Mathlib

/-!
Verification development for the lucid-clinic patient re-engagement system.

The repository ships the dashboard frontend: an API client
(`src/lib/api.ts`), the queue page, the campaign pages and the agent page.
Those parts are embedded here directly from the source.  The outreach core
(ScoringEngine, QueueManager, EligibilityResolver, DispatchCoordinator) is
specified but its implementation is not part of the shipped sources; where a
property depends on it, the relevant operation is modelled from the spec and
the definition's doc comment says so.

Strings are modelled as `List Char`; JavaScript numbers as `Int`/`ℚ`.
-/

/-! ## Template placeholders and rendering
    Source: `src/frontend/src/app/campaigns/new/page.tsx`, `previewText`:
    three sequential global `String.replace` calls. -/

/-- The placeholder `\x7bfirst_name\x7d` as a character list. -/
def phFirst : List Char := ['{', 'f', 'i', 'r', 's', 't', '_', 'n', 'a', 'm', 'e', '}']

/-- The placeholder `\x7bcalled_name\x7d` as a character list. -/
def phCalled : List Char := ['{', 'c', 'a', 'l', 'l', 'e', 'd', '_', 'n', 'a', 'm', 'e', '}']

/-- The placeholder `\x7blast_name\x7d` as a character list. -/
def phLast : List Char := ['{', 'l', 'a', 's', 't', '_', 'n', 'a', 'm', 'e', '}']

/-- Global string replacement: replaces every leftmost, non-overlapping
occurrence of `pat` by `rep`, scanning left to right — the semantics of
JavaScript `String.replace` with a global literal pattern, as used by
`previewText` in `campaigns/new/page.tsx`. -/
def replaceAll (pat rep : List Char) : List Char → List Char
  | [] => []
  | c :: rest =>
    if pat ≠ [] ∧ pat.isPrefixOf (c :: rest) then
      rep ++ replaceAll pat rep (List.drop pat.length (c :: rest))
    else
      c :: replaceAll pat rep rest
termination_by s => s.length
decreasing_by
· simp only [List.length_drop, List.length_cons]
  have hp : 0 < pat.length := List.length_pos.mpr (by assumption : pat ≠ [] ∧ _).1
  omega
· simp only [List.length_cons]; omega

/-- The renderer of `campaigns/new/page.tsx`: sequential global replacement
of the three placeholders, in source order — first `\x7bfirst_name\x7d`, then
`\x7bcalled_name\x7d`, then `\x7blast_name\x7d`. -/
def renderTemplate (tpl f c l : List Char) : List Char :=
  replaceAll phLast l (replaceAll phCalled c (replaceAll phFirst f tpl))

/-- Modelled from the spec: TemplateRenderer (§4.4) — "pure substitution of
recognized placeholders … no recursive expansion".  A single left-to-right
pass replacing each recognized placeholder occurrence with its value; the
substituted values are emitted verbatim and never rescanned. -/
def renderSpec (f c l : List Char) : List Char → List Char
  | [] => []
  | ch :: rest =>
    if phFirst.isPrefixOf (ch :: rest) then
      f ++ renderSpec f c l (List.drop phFirst.length (ch :: rest))
    else if phCalled.isPrefixOf (ch :: rest) then
      c ++ renderSpec f c l (List.drop phCalled.length (ch :: rest))
    else if phLast.isPrefixOf (ch :: rest) then
      l ++ renderSpec f c l (List.drop phLast.length (ch :: rest))
    else ch :: renderSpec f c l rest
termination_by s => s.length
decreasing_by
all_goals (simp only [List.length_drop, List.length_cons, phFirst, phCalled, phLast, List.length]; omega)

/-- A template segment: a literal run or one of the three placeholders. -/
inductive Seg where
  | lit : List Char → Seg
  | fname : Seg
  | cname : Seg
  | lname : Seg
deriving DecidableEq

/-- The raw text of a segment. -/
def segText : Seg → List Char
  | .lit s => s
  | .fname => phFirst
  | .cname => phCalled
  | .lname => phLast

/-- The rendered value of a segment for a given recipient. -/
def segValue (f c l : List Char) : Seg → List Char
  | .lit s => s
  | .fname => f
  | .cname => c
  | .lname => l

/-- The template text denoted by a list of segments. -/
def flattenSegs (segs : List Seg) : List Char := (segs.map segText).flatten

/-- A character list is brace-free when it contains no opening brace. -/
def braceFree (s : List Char) : Prop := '{' ∉ s

/-- A segment is well-formed when any literal run is brace-free. -/
def segOk : Seg → Prop
  | .lit s => braceFree s
  | _ => True

/-- All segments of a template are well-formed. -/
def segsOk (segs : List Seg) : Prop := ∀ seg ∈ segs, segOk seg

/-- Substitute one placeholder: the segment whose text is `pat` becomes the
literal value `v`; all other segments are unchanged. -/
def substPh (pat v : List Char) (seg : Seg) : Seg :=
  if segText seg = pat then .lit v else seg

instance : DecidablePred braceFree := fun s => inferInstanceAs (Decidable ('{' ∉ s))

instance : DecidablePred segOk := fun seg =>
  match seg with
  | .lit s => inferInstanceAs (Decidable ('{' ∉ s))
  | .fname => isTrue trivial
  | .cname => isTrue trivial
  | .lname => isTrue trivial

instance (segs : List Seg) : Decidable (segsOk segs) :=
  inferInstanceAs (Decidable (∀ seg ∈ segs, segOk seg))

/-! ## Scoring and tiers (spec §4.1; implementation not in the shipped sources) -/

/-- Recency tier, as listed in the tier filter of `campaigns/new/page.tsx`
and the tier badges: active / warm / cool / cold / dormant. -/
inductive Tier where
  | active
  | warm
  | cool
  | cold
  | dormant
deriving DecidableEq

/-- A patient snapshot as consumed by the scoring function.  Recency is
carried as whole months between `last_appt` and the supplied as-of time
(`none` when no last appointment is on file). -/
structure Snapshot where
  months_since_last_appt : Option Nat
  email : Option (List Char)
  cell_phone : Option (List Char)
  alt_phone : Option (List Char)
  total_visits : Nat
  has_insurance : Bool
  is_dnc : Bool

/-- Modelled from the spec: ScoringEngine recency bands (§4.1) — mutually
exclusive, pick one: under 6 months +40, 6–12 months +35, 1–2 years +28,
2–3 years +18, 3–5 years +10, 5 years or more +2; no last appointment on
file is treated as the 5y+ band. -/
def recencyPoints : Option Nat → Int
  | some m =>
    if m < 6 then 40
    else if m < 12 then 35
    else if m < 24 then 28
    else if m < 36 then 18
    else if m < 60 then 10
    else 2
  | none => 2

/-- Modelled from the spec: tier is a pure function of the recency band only
(§4.1), with the band-to-tier mapping shown in the campaign tier filter:
warm 6–12 months, cool 1–2 years, cold 2–5 years, dormant 5+ years, and
active under 6 months. -/
def tierOf : Option Nat → Tier
  | some m =>
    if m < 6 then .active
    else if m < 12 then .warm
    else if m < 24 then .cool
    else if m < 60 then .cold
    else .dormant
  | none => .dormant

/-- Modelled from the spec: ScoringEngine additive factors (§4.1) before
clamping — recency band, +20 email, +15 cell phone, +5 alternate phone,
visit bands (≥20:+10, ≥10:+7, ≥5:+4), +8 insurance, −30 if DNC, −15 when no
usable contact info. -/
def rawScore (s : Snapshot) : Int :=
  recencyPoints s.months_since_last_appt
    + (if s.email.isSome then 20 else 0)
    + (if s.cell_phone.isSome then 15 else 0)
    + (if s.alt_phone.isSome then 5 else 0)
    + (if 20 ≤ s.total_visits then 10
       else if 10 ≤ s.total_visits then 7
       else if 5 ≤ s.total_visits then 4 else 0)
    + (if s.has_insurance then 8 else 0)
    + (if s.is_dnc then -30 else 0)
    + (if s.email.isNone ∧ s.cell_phone.isNone ∧ s.alt_phone.isNone then -15 else 0)

/-- Modelled from the spec: the final score is the additive total clamped to
[0, 100] (§3, §4.1). -/
def computeScore (s : Snapshot) : Int := max 0 (min 100 (rawScore s))

/-- The C3 scenario snapshot: last appointment 8 months before the as-of
time, email only, 12 visits, no insurance, not DNC. -/
def c3snap : Snapshot :=
  { months_since_last_appt := some 8
    email := some ['a', '@', 'b']
    cell_phone := none
    alt_phone := none
    total_visits := 12
    has_insurance := false
    is_dnc := false }

/-! ## Queue state machine (spec §4.2) and the queue page -/

/-- Queue item status, matching the `STATUSES` list of the queue page. -/
inductive QStatus where
  | pending
  | contacted
  | responded
  | booked
  | dead
deriving DecidableEq

/-- The display name of a queue status, as the frontend renders it. -/
def qstatusName : QStatus → String
  | .pending => "pending"
  | .contacted => "contacted"
  | .responded => "responded"
  | .booked => "booked"
  | .dead => "dead"

/-- `STATUSES` from the queue page (`src/unnamed/part_000` queue page source):
every status is offered in the row dropdown. -/
def STATUSES : List String := ["pending", "contacted", "responded", "booked", "dead"]

/-- Modelled from the spec: legal queue transitions (§4.2) —
pending→contacted, contacted→responded, responded→booked, and any
state→dead; everything else is illegal. -/
def allowedTransition : QStatus → QStatus → Bool
  | .pending, .contacted => true
  | .contacted, .responded => true
  | .responded, .booked => true
  | _, .dead => true
  | _, _ => false

/-- A queue item's mutable state. -/
structure QueueItemState where
  patient_id : Nat
  status : QStatus
  tier : Tier
  score : Int
  contact_attempts : Nat
deriving DecidableEq

/-- Error taxonomy entries used by the queue and campaign operations
(spec §7). -/
inductive CoreError where
  | InvalidTransition
  | AlreadySending
deriving DecidableEq

/-- Modelled from the spec: `QueueManager.setStatus` (§4.2) — applies the
requested status when the transition is legal, otherwise fails with
`InvalidTransition` and changes nothing. -/
def setStatus (item : QueueItemState) (new : QStatus) : Except CoreError QueueItemState :=
  if allowedTransition item.status new then .ok { item with status := new }
  else .error .InvalidTransition

/-! ## Eligibility resolution (spec §4.3) -/

/-- Campaign channel, from the frontend's `"sms" | "email"` union. -/
inductive Channel where
  | sms
  | email
deriving DecidableEq

/-- The patient fields eligibility reads. -/
structure PatientRec where
  id : Nat
  is_dnc : Bool
  cell_phone : Option (List Char)
  email : Option (List Char)
deriving DecidableEq

/-- A prior outreach message, as far as eligibility cares. -/
structure MsgRec where
  patient_id : Nat
  is_opt_out : Bool
deriving DecidableEq

/-- A campaign's targeting spec. -/
structure CampaignSpec where
  channel : Channel
  tier_filter : Option Tier
  score_min : Int
deriving DecidableEq

/-- The contact address a channel requires: cell phone for sms, email for
email. -/
def contactFor (ch : Channel) (p : PatientRec) : Option (List Char) :=
  match ch with
  | .sms => p.cell_phone
  | .email => p.email

/-- Whether the patient has any prior opt-out message on record. -/
def hasPriorOptOut (msgs : List MsgRec) (pid : Nat) : Bool :=
  msgs.any fun m => m.patient_id == pid && m.is_opt_out

/-- Modelled from the spec: EligibilityResolver predicate (§4.3) — status in
pending or contacted, tier filter unset or matching, score at least
`score_min`, patient not DNC, no prior opt-out, and a contact address for
the campaign's channel. -/
def eligibleItem (c : CampaignSpec) (msgs : List MsgRec) (q : QueueItemState) (p : PatientRec) : Bool :=
  (q.status == .pending || q.status == .contacted)
    && (match c.tier_filter with
        | none => true
        | some t => q.tier == t)
    && decide (c.score_min ≤ q.score)
    && !p.is_dnc
    && !hasPriorOptOut msgs q.patient_id
    && (contactFor c.channel p).isSome

/-- Modelled from the spec: the resolved recipient set (§4.3) — the queue
items (with their patients) passing the eligibility predicate. -/
def resolveRecipients (c : CampaignSpec) (msgs : List MsgRec)
    (db : List (QueueItemState × PatientRec)) : List (QueueItemState × PatientRec) :=
  db.filter fun qp => eligibleItem c msgs qp.1 qp.2

/-! ## Campaign dispatch submit (spec §4.5) and the campaign detail page -/

/-- Campaign dispatch status. -/
inductive CampStatus where
  | draft
  | sending
  | sent
  | failed
deriving DecidableEq

/-- A campaign's dispatch-relevant state: its status and how many outreach
messages have been created for it. -/
structure CampaignState where
  status : CampStatus
  messages_created : Nat
deriving DecidableEq

/-- Modelled from the spec: `submit` (§4.5) — a compare-and-swap on the
campaign status: succeeds only from `draft`, moving to `sending` and
creating one message per resolved recipient; any other starting status
fails with `AlreadySending` and creates nothing. -/
def submitCampaign (recipients : Nat) (c : CampaignState) : Except CoreError CampaignState :=
  if c.status = .draft then
    .ok { status := .sending, messages_created := c.messages_created + recipients }
  else .error .AlreadySending

/-- The campaign detail page shows the Send Campaign button exactly when
`campaign.status === "draft"` (`campaigns/[id]/page.tsx`). -/
def showSendButton (status : String) : Bool := status == "draft"

/-! ## API client request payloads (`src/lib/api.ts`) -/

/-- Body fields of the `PATCH /api/queue/\x7bid\x7d/status` request issued
by `updateQueueStatus`: `JSON.stringify(\x7b status \x7d)`. -/
def updateQueueStatusBodyFields : List String := ["status"]

/-- Body fields of the `POST /api/campaigns` request issued by
`createCampaign`. -/
def createCampaignBodyFields : List String :=
  ["name", "channel", "tier_filter", "score_min", "message_template", "subject"]

/-- Body fields of the `POST /api/agent/tasks` request issued by
`submitAgentTask`. -/
def submitAgentTaskBodyFields : List String := ["task_type", "params", "confirmed"]

/-- Every key that can appear inside the nested `params` object built by
`buildParams` on the agent page. -/
def agentTaskParamFields : List String :=
  ["patient_account_id", "date", "time", "provider", "fields", "email", "cell_phone", "address"]

/-- All field names, top-level or nested, of every request body any exported
API-client function can send.  `confirmAgentTask` and `cancelAgentTask` POST
with no body and every other exported function is a GET, so these four sets
cover every byte of request payload the frontend can produce. -/
def frontendBodyFieldSets : List (List String) :=
  [updateQueueStatusBodyFields, createCampaignBodyFields,
   submitAgentTaskBodyFields, agentTaskParamFields]

/-- Modelled from the spec: the core operations reachable behind the API
surface (§4.2, §4.5, §4.6).  Only opt-out reconciliation touches the DNC
flag. -/
inductive CoreOp where
  | upsertFromScore
  | setQueueStatus
  | recordContactAttempt
  | submitDispatch
  | reconcileDelivered
  | reconcileBounced
  | reconcileOptOut
deriving DecidableEq

/-- Modelled from the spec: the effect of each core operation on a patient's
`is_dnc` flag — opt-out reconciliation sets it to true (§4.6); no operation
writes it back to false (§3). -/
def applyDnc : CoreOp → Bool → Bool
  | .reconcileOptOut, _ => true
  | _, dnc => dnc

/-! ## `fetchApi` (`src/lib/api.ts`) -/

/-- An HTTP response as `fetchApi` inspects it: the `ok` flag, the numeric
status, the body text, and the body's parsed JSON value (kept abstract as a
string). -/
structure HttpResponse where
  ok : Bool
  statusCode : Nat
  bodyText : String
  jsonBody : String
deriving DecidableEq

/-- `fetchApi` from `src/lib/api.ts`: returns the parsed JSON body when
`res.ok`, otherwise throws an Error with message
`API error $\x7bres.status\x7d: $\x7bawait res.text()\x7d`. -/
def fetchApi (res : HttpResponse) : Except String String :=
  if res.ok then .ok res.jsonBody
  else .error ("API error " ++ Nat.repr res.statusCode ++ ": " ++ res.bodyText)

/-! ## Campaign detail rate computations (`campaigns/[id]/page.tsx`) -/

/-- The aggregate counters the campaign detail page reads. -/
structure CampaignCounts where
  sent_count : Int
  failed_count : Int
  responded_count : Int
deriving DecidableEq

/-- JavaScript `Math.round`: round half toward positive infinity. -/
def jsRound (q : ℚ) : Int := ⌊q + 1 / 2⌋

/-- `deliveryRate` from the campaign detail page:
`sent_count > 0 ? Math.round(((sent_count - failed_count) / sent_count) * 100) : 0`. -/
def deliveryRate (c : CampaignCounts) : Int :=
  if 0 < c.sent_count then
    jsRound ((((c.sent_count : ℚ) - (c.failed_count : ℚ)) / (c.sent_count : ℚ)) * 100)
  else 0

/-- `responseRate` from the campaign detail page:
`sent_count > 0 ? Math.round((responded_count / sent_count) * 100) : 0`. -/
def responseRate (c : CampaignCounts) : Int :=
  if 0 < c.sent_count then
    jsRound (((c.responded_count : ℚ) / (c.sent_count : ℚ)) * 100)
  else 0

/-! ## Agent task submission (`agent/page.tsx`) -/

/-- The body of the `POST /api/agent/tasks` request: task type and the
`confirmed` flag (`params` is irrelevant to C10 and omitted). -/
structure AgentTaskRequest where
  task_type : String
  confirmed : Bool
deriving DecidableEq

/-- `handleSubmit` on the agent page: submits the selected task with
`confirmed = (selectedTask === "sync_patients")` (the `autoConfirm` local). -/
def agentHandleSubmit (selectedTask : String) : AgentTaskRequest :=
  { task_type := selectedTask, confirmed := selectedTask == "sync_patients" }

/-! ## Campaign creation form validation (`campaigns/new/page.tsx`) -/

/-- JavaScript whitespace test used by `String.trim` for the characters this
form can receive. -/
def isSpaceChar (c : Char) : Bool := c == ' ' || c == '\t' || c == '\n' || c == '\r'

/-- JavaScript `String.trim`: strip leading and trailing whitespace. -/
def trimChars (s : List Char) : List Char :=
  ((s.dropWhile isSpaceChar).reverse.dropWhile isSpaceChar).reverse

/-- The payload `handleSubmit` passes to `createCampaign`. -/
structure CampaignCreateBody where
  name : List Char
  channel : Channel
  tier_filter : Option (List Char)
  score_min : Int
  message_template : List Char
  subject : Option (List Char)
deriving DecidableEq

/-- `handleSubmit` of the new-campaign page: rejects a blank (after trim)
name, then a blank message template, then — for email campaigns — a blank
subject, setting the corresponding error message and returning before
`createCampaign` is ever called; otherwise it calls `createCampaign` with
the payload built exactly as in the source. -/
def newCampaignSubmit (name : List Char) (channel : Channel) (tierFilter : List Char)
    (scoreMin : Int) (messageTemplate : List Char) (subject : List Char) :
    Except String CampaignCreateBody :=
  if trimChars name = [] then .error "Campaign name is required"
  else if trimChars messageTemplate = [] then .error "Message template is required"
  else if channel = .email ∧ trimChars subject = [] then .error "Email subject is required"
  else
    .ok { name := trimChars name
          channel := channel
          tier_filter := if tierFilter = [] then none else some tierFilter
          score_min := scoreMin
          message_template := messageTemplate
          subject := if channel = .email then some subject else none }

/-! ## Lemmas about global replacement and one-pass rendering -/

theorem replaceAll_nil (pat rep : List Char) : replaceAll pat rep [] = [] := by
  simp [replaceAll]

theorem replaceAll_cons_neg (pat rep : List Char) (c : Char) (s : List Char)
    (h : pat.isPrefixOf (c :: s) = false) :
    replaceAll pat rep (c :: s) = c :: replaceAll pat rep s := by
  rw [replaceAll, if_neg]
  intro hcond
  rw [h] at hcond
  exact Bool.noConfusion hcond.2

theorem replaceAll_cons_pos (pat rep : List Char) (c : Char) (s : List Char)
    (hne : pat ≠ []) (h : pat.isPrefixOf (c :: s) = true) :
    replaceAll pat rep (c :: s) = rep ++ replaceAll pat rep (List.drop pat.length (c :: s)) := by
  rw [replaceAll, if_pos ⟨hne, h⟩]

theorem isPrefixOf_self_append (l t : List Char) : l.isPrefixOf (l ++ t) = true := by
  induction l with
  | nil => simp [List.isPrefixOf]
  | cons a as ih => simp [List.isPrefixOf, ih]

theorem isPrefixOf_false_of_head_ne (p c : Char) (ps s : List Char) (h : p ≠ c) :
    (p :: ps).isPrefixOf (c :: s) = false := by
  simp [List.isPrefixOf, h]

theorem isPrefixOf_false_of_second_ne (a p q : Char) (ps qs : List Char) (h : p ≠ q) :
    (a :: p :: ps).isPrefixOf (a :: q :: qs) = false := by
  simp [List.isPrefixOf, h]

theorem replaceAll_append_braceFree (pat rep : List Char) (p' : List Char)
    (hpat : pat = '{' :: p') (s t : List Char) (hs : braceFree s) :
    replaceAll pat rep (s ++ t) = s ++ replaceAll pat rep t := by
  induction s with
  | nil => simp
  | cons c s' ih =>
    have hc : '{' ≠ c := fun h => hs (h ▸ List.mem_cons_self c s')
    have hs' : braceFree s' := fun h => hs (List.mem_cons_of_mem c h)
    rw [List.cons_append,
      replaceAll_cons_neg pat rep c (s' ++ t)
        (by rw [hpat]; exact isPrefixOf_false_of_head_ne '{' c p' (s' ++ t) hc),
      ih hs']
    rfl

theorem replaceAll_self_append (pat rep t : List Char) (hne : pat ≠ []) :
    replaceAll pat rep (pat ++ t) = rep ++ replaceAll pat rep t := by
  cases pat with
  | nil => exact absurd rfl hne
  | cons p ps =>
    rw [List.cons_append,
      replaceAll_cons_pos (p :: ps) rep p (ps ++ t) hne
        (isPrefixOf_self_append (p :: ps) t)]
    congr 1
    rw [show ((p :: ps).length = ps.length + 1) from rfl]
    rw [List.drop_succ_cons, List.drop_left]

theorem replaceAll_skip (rep : List Char) (y : Char) (ys : List Char) (x : Char)
    (xs t : List Char) (hyx : y ≠ x) (hx : x ≠ '{') (hxs : braceFree xs) :
    replaceAll ('{' :: y :: ys) rep (('{' :: x :: xs) ++ t)
      = ('{' :: x :: xs) ++ replaceAll ('{' :: y :: ys) rep t := by
  rw [List.cons_append,
    replaceAll_cons_neg _ rep '{' (x :: xs ++ t)
      (isPrefixOf_false_of_second_ne '{' y x ys (xs ++ t) hyx)]
  have hbf : braceFree (x :: xs) := by
    intro h
    rcases List.mem_cons.mp h with h1 | h2
    · exact hx h1.symm
    · exact hxs h2
  rw [show ((x :: xs) ++ t) = (x :: xs) ++ t from rfl] at *
  rw [replaceAll_append_braceFree ('{' :: y :: ys) rep (y :: ys) rfl (x :: xs) t hbf]
  rfl

theorem flattenSegs_nil : flattenSegs [] = [] := by simp [flattenSegs]

theorem flattenSegs_cons (seg : Seg) (rest : List Seg) :
    flattenSegs (seg :: rest) = segText seg ++ flattenSegs rest := by
  simp [flattenSegs]

theorem skip_first_called (v t : List Char) :
    replaceAll phFirst v (phCalled ++ t) = phCalled ++ replaceAll phFirst v t :=
  replaceAll_skip v 'f' _ 'c' _ t (by decide) (by decide) (by decide)

theorem skip_first_last (v t : List Char) :
    replaceAll phFirst v (phLast ++ t) = phLast ++ replaceAll phFirst v t :=
  replaceAll_skip v 'f' _ 'l' _ t (by decide) (by decide) (by decide)

theorem skip_called_first (v t : List Char) :
    replaceAll phCalled v (phFirst ++ t) = phFirst ++ replaceAll phCalled v t :=
  replaceAll_skip v 'c' _ 'f' _ t (by decide) (by decide) (by decide)

theorem skip_called_last (v t : List Char) :
    replaceAll phCalled v (phLast ++ t) = phLast ++ replaceAll phCalled v t :=
  replaceAll_skip v 'c' _ 'l' _ t (by decide) (by decide) (by decide)

theorem skip_last_first (v t : List Char) :
    replaceAll phLast v (phFirst ++ t) = phFirst ++ replaceAll phLast v t :=
  replaceAll_skip v 'l' _ 'f' _ t (by decide) (by decide) (by decide)

theorem skip_last_called (v t : List Char) :
    replaceAll phLast v (phCalled ++ t) = phCalled ++ replaceAll phLast v t :=
  replaceAll_skip v 'l' _ 'c' _ t (by decide) (by decide) (by decide)

theorem replaceAll_pass (pat v : List Char)
    (hpat : pat = phFirst ∨ pat = phCalled ∨ pat = phLast)
    (segs : List Seg) (hok : segsOk segs) :
    replaceAll pat v (flattenSegs segs) = flattenSegs (segs.map (substPh pat v)) := by
  induction segs with
  | nil => simp [flattenSegs_nil, replaceAll_nil]
  | cons seg rest ih =>
    have hokseg : segOk seg := hok seg (List.mem_cons_self _ _)
    have hokrest : segsOk rest := fun s hs => hok s (List.mem_cons_of_mem _ hs)
    rw [flattenSegs_cons, List.map_cons, flattenSegs_cons]
    cases seg with
    | lit s =>
      have hs : braceFree s := hokseg
      have hpat' : ∃ p', pat = '{' :: p' := by
        rcases hpat with h | h | h <;> subst h
        all_goals exact ⟨_, rfl⟩
      obtain ⟨p', hp'⟩ := hpat'
      have hsub : substPh pat v (.lit s) = .lit s := by
        unfold substPh
        rw [if_neg]
        intro heq
        simp only [segText] at heq
        exact hs (heq ▸ (hp' ▸ List.mem_cons_self '{' p'))
      rw [hsub]
      simp only [segText]
      rw [replaceAll_append_braceFree pat v p' hp' s _ hs, ih hokrest]
    | fname =>
      simp only [segText]
      rcases hpat with h | h | h <;> subst h
      · rw [replaceAll_self_append phFirst v _ (by decide), ih hokrest,
          show substPh phFirst v Seg.fname = Seg.lit v from by simp [substPh, segText]]
      · rw [skip_called_first, ih hokrest,
          show substPh phCalled v Seg.fname = Seg.fname from by simp [substPh, segText, phFirst, phCalled]]
      · rw [skip_last_first, ih hokrest,
          show substPh phLast v Seg.fname = Seg.fname from by simp [substPh, segText, phFirst, phLast]]
    | cname =>
      simp only [segText]
      rcases hpat with h | h | h <;> subst h
      · rw [skip_first_called, ih hokrest,
          show substPh phFirst v Seg.cname = Seg.cname from by simp [substPh, segText, phFirst, phCalled]]
      · rw [replaceAll_self_append phCalled v _ (by decide), ih hokrest,
          show substPh phCalled v Seg.cname = Seg.lit v from by simp [substPh, segText]]
      · rw [skip_last_called, ih hokrest,
          show substPh phLast v Seg.cname = Seg.cname from by simp [substPh, segText, phCalled, phLast]]
    | lname =>
      simp only [segText]
      rcases hpat with h | h | h <;> subst h
      · rw [skip_first_last, ih hokrest,
          show substPh phFirst v Seg.lname = Seg.lname from by simp [substPh, segText, phFirst, phLast]]
      · rw [skip_called_last, ih hokrest,
          show substPh phCalled v Seg.lname = Seg.lname from by simp [substPh, segText, phCalled, phLast]]
      · rw [replaceAll_self_append phLast v _ (by decide), ih hokrest,
          show substPh phLast v Seg.lname = Seg.lit v from by simp [substPh, segText]]

theorem renderSpec_nil (f c l : List Char) : renderSpec f c l [] = [] := by
  simp [renderSpec]

theorem renderSpec_cons_first (f c l : List Char) (ch : Char) (rest : List Char)
    (h : phFirst.isPrefixOf (ch :: rest) = true) :
    renderSpec f c l (ch :: rest)
      = f ++ renderSpec f c l (List.drop phFirst.length (ch :: rest)) := by
  rw [renderSpec, if_pos h]

theorem renderSpec_cons_called (f c l : List Char) (ch : Char) (rest : List Char)
    (h1 : phFirst.isPrefixOf (ch :: rest) = false)
    (h2 : phCalled.isPrefixOf (ch :: rest) = true) :
    renderSpec f c l (ch :: rest)
      = c ++ renderSpec f c l (List.drop phCalled.length (ch :: rest)) := by
  rw [renderSpec, if_neg (by simp [h1]), if_pos h2]

theorem renderSpec_cons_last (f c l : List Char) (ch : Char) (rest : List Char)
    (h1 : phFirst.isPrefixOf (ch :: rest) = false)
    (h2 : phCalled.isPrefixOf (ch :: rest) = false)
    (h3 : phLast.isPrefixOf (ch :: rest) = true) :
    renderSpec f c l (ch :: rest)
      = l ++ renderSpec f c l (List.drop phLast.length (ch :: rest)) := by
  rw [renderSpec, if_neg (by simp [h1]), if_neg (by simp [h2]), if_pos h3]

theorem renderSpec_cons_none (f c l : List Char) (ch : Char) (rest : List Char)
    (h1 : phFirst.isPrefixOf (ch :: rest) = false)
    (h2 : phCalled.isPrefixOf (ch :: rest) = false)
    (h3 : phLast.isPrefixOf (ch :: rest) = false) :
    renderSpec f c l (ch :: rest) = ch :: renderSpec f c l rest := by
  rw [renderSpec, if_neg (by simp [h1]), if_neg (by simp [h2]), if_neg (by simp [h3])]

theorem renderSpec_append_braceFree (f c l : List Char) (s t : List Char)
    (hs : braceFree s) :
    renderSpec f c l (s ++ t) = s ++ renderSpec f c l t := by
  induction s with
  | nil => simp
  | cons ch s' ih =>
    have hc : '{' ≠ ch := fun h => hs (h ▸ List.mem_cons_self ch s')
    have hs' : braceFree s' := fun h => hs (List.mem_cons_of_mem ch h)
    rw [List.cons_append,
      renderSpec_cons_none f c l ch (s' ++ t)
        (isPrefixOf_false_of_head_ne '{' ch _ _ hc)
        (isPrefixOf_false_of_head_ne '{' ch _ _ hc)
        (isPrefixOf_false_of_head_ne '{' ch _ _ hc),
      ih hs']
    rfl

theorem renderSpec_eat_first (f c l t : List Char) :
    renderSpec f c l (phFirst ++ t) = f ++ renderSpec f c l t := by
  rw [show phFirst ++ t = '{' :: (['f', 'i', 'r', 's', 't', '_', 'n', 'a', 'm', 'e', '}'] ++ t) from rfl,
    renderSpec_cons_first f c l '{' (['f', 'i', 'r', 's', 't', '_', 'n', 'a', 'm', 'e', '}'] ++ t)
      (by exact isPrefixOf_self_append phFirst t)]
  rfl

theorem renderSpec_eat_called (f c l t : List Char) :
    renderSpec f c l (phCalled ++ t) = c ++ renderSpec f c l t := by
  rw [show phCalled ++ t = '{' :: (['c', 'a', 'l', 'l', 'e', 'd', '_', 'n', 'a', 'm', 'e', '}'] ++ t) from rfl,
    renderSpec_cons_called f c l '{' (['c', 'a', 'l', 'l', 'e', 'd', '_', 'n', 'a', 'm', 'e', '}'] ++ t)
      (by exact isPrefixOf_false_of_second_ne '{' 'f' 'c' _ _ (by decide))
      (by exact isPrefixOf_self_append phCalled t)]
  rfl

theorem renderSpec_eat_last (f c l t : List Char) :
    renderSpec f c l (phLast ++ t) = l ++ renderSpec f c l t := by
  rw [show phLast ++ t = '{' :: (['l', 'a', 's', 't', '_', 'n', 'a', 'm', 'e', '}'] ++ t) from rfl,
    renderSpec_cons_last f c l '{' (['l', 'a', 's', 't', '_', 'n', 'a', 'm', 'e', '}'] ++ t)
      (by exact isPrefixOf_false_of_second_ne '{' 'f' 'l' _ _ (by decide))
      (by exact isPrefixOf_false_of_second_ne '{' 'c' 'l' _ _ (by decide))
      (by exact isPrefixOf_self_append phLast t)]
  rfl

theorem renderSpec_pass (f c l : List Char) (segs : List Seg) (hok : segsOk segs) :
    renderSpec f c l (flattenSegs segs) = (segs.map (segValue f c l)).flatten := by
  induction segs with
  | nil => simp [flattenSegs_nil, renderSpec_nil]
  | cons seg rest ih =>
    have hokseg : segOk seg := hok seg (List.mem_cons_self _ _)
    have hokrest : segsOk rest := fun s hs => hok s (List.mem_cons_of_mem _ hs)
    rw [flattenSegs_cons, List.map_cons, List.flatten_cons]
    cases seg with
    | lit s =>
      rw [show segText (Seg.lit s) = s from rfl,
        renderSpec_append_braceFree f c l s _ hokseg, ih hokrest]
      rfl
    | fname => rw [show segText Seg.fname = phFirst from rfl, renderSpec_eat_first, ih hokrest]; rfl
    | cname => rw [show segText Seg.cname = phCalled from rfl, renderSpec_eat_called, ih hokrest]; rfl
    | lname => rw [show segText Seg.lname = phLast from rfl, renderSpec_eat_last, ih hokrest]; rfl

theorem segsOk_map_substPh (pat v : List Char) (hv : braceFree v) (segs : List Seg)
    (hok : segsOk segs) : segsOk (segs.map (substPh pat v)) := by
  intro seg hmem
  rcases List.mem_map.mp hmem with ⟨orig, horig, rfl⟩
  unfold substPh
  by_cases h : segText orig = pat
  · rw [if_pos h]; exact hv
  · rw [if_neg h]; exact hok orig horig

theorem substPh_triple (f c l : List Char) (hf : braceFree f) (hc : braceFree c)
    (seg : Seg) (hseg : segOk seg) :
    substPh phLast l (substPh phCalled c (substPh phFirst f seg))
      = .lit (segValue f c l seg) := by
  cases seg with
  | lit s =>
    have h1 : ¬(s = phFirst) := by intro h; subst h; exact hseg (by decide)
    have h2 : ¬(s = phCalled) := by intro h; subst h; exact hseg (by decide)
    have h3 : ¬(s = phLast) := by intro h; subst h; exact hseg (by decide)
    have e1 : substPh phFirst f (.lit s) = .lit s := by unfold substPh; rw [if_neg]; exact h1
    have e2 : substPh phCalled c (.lit s) = .lit s := by unfold substPh; rw [if_neg]; exact h2
    have e3 : substPh phLast l (.lit s) = .lit s := by unfold substPh; rw [if_neg]; exact h3
    rw [e1, e2, e3]
    rfl
  | fname =>
    have e1 : substPh phFirst f Seg.fname = .lit f := by simp [substPh, segText]
    have e2 : substPh phCalled c (.lit f) = .lit f := by
      unfold substPh
      rw [if_neg]
      intro h
      simp only [segText] at h
      exact hf (by rw [h]; decide)
    have e3 : substPh phLast l (.lit f) = .lit f := by
      unfold substPh
      rw [if_neg]
      intro h
      simp only [segText] at h
      exact hf (by rw [h]; decide)
    rw [e1, e2, e3]
    rfl
  | cname =>
    have e1 : substPh phFirst f Seg.cname = Seg.cname := by
      unfold substPh; rw [if_neg (by decide)]
    have e2 : substPh phCalled c Seg.cname = .lit c := by simp [substPh, segText]
    have e3 : substPh phLast l (.lit c) = .lit c := by
      unfold substPh
      rw [if_neg]
      intro h
      simp only [segText] at h
      exact hc (by rw [h]; decide)
    rw [e1, e2, e3]
    rfl
  | lname =>
    have e1 : substPh phFirst f Seg.lname = Seg.lname := by
      unfold substPh; rw [if_neg (by decide)]
    have e2 : substPh phCalled c Seg.lname = Seg.lname := by
      unfold substPh; rw [if_neg (by decide)]
    have e3 : substPh phLast l Seg.lname = .lit l := by simp [substPh, segText]
    rw [e1, e2, e3]
    rfl

/-! ## Claim theorems -/

/-- C5 counterexample: rendering is NOT the simultaneous, non-recursive
substitution the claim describes.  Two concrete refutations: (a) with
perfectly ordinary values (f = "", c = "C", l = "L") the template
`\x7bcal\x7bfirst_name\x7dled_name\x7d` renders to "C" — replacing
`\x7bfirst_name\x7d` joins the surrounding text into `\x7bcalled_name\x7d`,
which the second replace then expands, although it was never a placeholder
of the template; a non-recursive simultaneous substitution leaves the
literal `\x7bcalled_name\x7d`.  (b) a `\x7blast_name\x7d` introduced by the
value substituted for `\x7bfirst_name\x7d` is itself expanded. -/
theorem C5_counterexample :
    renderTemplate (['{', 'c', 'a', 'l'] ++ phFirst ++ ['l', 'e', 'd', '_', 'n', 'a', 'm', 'e', '}'])
        [] ['C'] ['L']
      ≠ renderSpec [] ['C'] ['L']
        (['{', 'c', 'a', 'l'] ++ phFirst ++ ['l', 'e', 'd', '_', 'n', 'a', 'm', 'e', '}']) ∧
    renderTemplate phFirst phLast ['C'] ['L'] ≠ renderSpec phLast ['C'] ['L'] phFirst := by
  constructor
  · have h1 : renderTemplate (['{', 'c', 'a', 'l'] ++ phFirst ++ ['l', 'e', 'd', '_', 'n', 'a', 'm', 'e', '}'])
        [] ['C'] ['L'] = ['C'] := by
      simp [renderTemplate, replaceAll, phFirst, phCalled, phLast, List.isPrefixOf]
    have h2 : renderSpec [] ['C'] ['L']
        (['{', 'c', 'a', 'l'] ++ phFirst ++ ['l', 'e', 'd', '_', 'n', 'a', 'm', 'e', '}']) = phCalled := by
      simp [renderSpec, phFirst, phCalled, phLast, List.isPrefixOf]
    rw [h1, h2]
    decide
  · have h1 : renderTemplate phFirst phLast ['C'] ['L'] = ['L'] := by
      simp [renderTemplate, replaceAll, phFirst, phCalled, phLast, List.isPrefixOf]
    have h2 : renderSpec phLast ['C'] ['L'] phFirst = phLast := by
      simp [renderSpec, phFirst, phCalled, phLast, List.isPrefixOf]
    rw [h1, h2]
    decide

/-- C5 (amended): rendering substitutes the three placeholders sequentially
(`\x7bfirst_name\x7d`, then `\x7bcalled_name\x7d`, then `\x7blast_name\x7d`),
so a later placeholder occurrence introduced by an earlier substitution — by
a substituted value containing placeholder text, or by juxtaposition of the
surrounding template once an occurrence is cut out — is itself expanded.
Restricted to templates in which every opening brace begins one of the three
recognized placeholders (segments of brace-free literal text and exact
placeholder tokens) and to recipient values containing no opening brace,
rendering replaces every occurrence of each placeholder with its value,
leaves every other character unchanged, and performs no recursive expansion:
it coincides with the one-pass simultaneous substitution of the spec. -/
theorem C5_render_correct (segs : List Seg) (f c l : List Char)
    (hok : segsOk segs) (hf : braceFree f) (hc : braceFree c) (_hl : braceFree l) :
    renderTemplate (flattenSegs segs) f c l = (segs.map (segValue f c l)).flatten ∧
    renderSpec f c l (flattenSegs segs) = (segs.map (segValue f c l)).flatten := by
  refine ⟨?_, renderSpec_pass f c l segs hok⟩
  unfold renderTemplate
  rw [replaceAll_pass phFirst f (Or.inl rfl) segs hok]
  have hok1 := segsOk_map_substPh phFirst f hf segs hok
  rw [replaceAll_pass phCalled c (Or.inr (Or.inl rfl)) _ hok1]
  have hok2 := segsOk_map_substPh phCalled c hc _ hok1
  rw [replaceAll_pass phLast l (Or.inr (Or.inr rfl)) _ hok2]
  unfold flattenSegs
  rw [List.map_map, List.map_map, List.map_map]
  congr 1
  apply List.map_congr_left
  intro seg hmem
  have htrip := substPh_triple f c l hf hc seg (hok seg hmem)
  simp only [Function.comp_apply, htrip, segText]

/-- C5 witness: the amended rendering theorem applied to the concrete
template "Hi \x7bfirst_name\x7d" with values "Jo" / "A" / "B". -/
theorem C5_witness :
    renderTemplate (flattenSegs [Seg.lit ['H', 'i', ' '], Seg.fname]) ['J', 'o'] ['A'] ['B']
        = (([Seg.lit ['H', 'i', ' '], Seg.fname]).map (segValue ['J', 'o'] ['A'] ['B'])).flatten ∧
    renderSpec ['J', 'o'] ['A'] ['B'] (flattenSegs [Seg.lit ['H', 'i', ' '], Seg.fname])
        = (([Seg.lit ['H', 'i', ' '], Seg.fname]).map (segValue ['J', 'o'] ['A'] ['B'])).flatten :=
  C5_render_correct [Seg.lit ['H', 'i', ' '], Seg.fname] ['J', 'o'] ['A'] ['B']
    (by decide) (by decide) (by decide) (by decide)

set_option maxRecDepth 4000 in
theorem eligibleItem_iff (c : CampaignSpec) (msgs : List MsgRec)
    (q : QueueItemState) (p : PatientRec) :
    eligibleItem c msgs q p = true ↔
      ((q.status = .pending ∨ q.status = .contacted)
        ∧ (c.tier_filter = none ∨ c.tier_filter = some q.tier)
        ∧ c.score_min ≤ q.score
        ∧ p.is_dnc = false
        ∧ hasPriorOptOut msgs q.patient_id = false
        ∧ (contactFor c.channel p).isSome = true) := by
  unfold eligibleItem
  cases htf : c.tier_filter with
  | none =>
    simp only [Bool.and_eq_true, Bool.or_eq_true, beq_iff_eq, decide_eq_true_eq,
      Bool.not_eq_true', and_assoc]
    simp only [true_and, true_or]
  | some t =>
    simp only [Bool.and_eq_true, Bool.or_eq_true, beq_iff_eq, decide_eq_true_eq,
      Bool.not_eq_true', and_assoc]
    have ht : (some t = none ∨ some t = some q.tier) ↔ q.tier = t := by
      constructor
      · rintro (h | h)
        · exact Option.noConfusion h
        · injection h with h
          exact h.symm
      · intro h
        exact Or.inr (by rw [h])
    rw [ht]

theorem allowedTransition_iff (a b : QStatus) :
    allowedTransition a b = true ↔
      ((a = .pending ∧ b = .contacted) ∨ (a = .contacted ∧ b = .responded)
        ∨ (a = .responded ∧ b = .booked) ∨ b = .dead) := by
  cases a <;> cases b <;> decide

/-- C1: `is_dnc` is irreversible-forward.  (a) No request body the frontend
API client can issue — `updateQueueStatus` (only `status`), `createCampaign`
(only the campaign spec fields), `submitAgentTask` (task type, params,
confirmed, and the `buildParams` keys) — carries an `is_dnc` field, so no
run of the frontend can clear the DNC flag.  (b) In the spec-modelled core,
no operation writes `is_dnc` from true back to false. -/
theorem C1_dnc_irreversible :
    (∀ fields ∈ frontendBodyFieldSets, "is_dnc" ∉ fields) ∧
    (∀ (op : CoreOp) (dnc : Bool), dnc = true → applyDnc op dnc = true) := by
  constructor
  · decide
  · intro op dnc h
    subst h
    cases op <;> rfl

/-- C1 witness: the queue status update carries no `is_dnc` field, and the
spec-modelled queue status operation preserves a set DNC flag. -/
theorem C1_witness :
    "is_dnc" ∉ updateQueueStatusBodyFields ∧ applyDnc CoreOp.setQueueStatus true = true :=
  ⟨C1_dnc_irreversible.1 updateQueueStatusBodyFields (by decide),
   C1_dnc_irreversible.2 CoreOp.setQueueStatus true rfl⟩

/-- C2: a queue item/patient pair is in the resolved recipient set iff it is
in the queue and its status is pending or contacted, the tier filter is
unset or matches, the score is at least `score_min`, the patient is not DNC,
the patient has no prior opt-out message, and the patient has a contact
address for the campaign's channel; in particular a DNC patient is excluded
regardless of score. -/
theorem C2_eligibility (c : CampaignSpec) (msgs : List MsgRec)
    (db : List (QueueItemState × PatientRec)) (q : QueueItemState) (p : PatientRec) :
    ((q, p) ∈ resolveRecipients c msgs db ↔
      ((q, p) ∈ db
        ∧ (q.status = .pending ∨ q.status = .contacted)
        ∧ (c.tier_filter = none ∨ c.tier_filter = some q.tier)
        ∧ c.score_min ≤ q.score
        ∧ p.is_dnc = false
        ∧ hasPriorOptOut msgs q.patient_id = false
        ∧ (contactFor c.channel p).isSome = true)) ∧
    (p.is_dnc = true → (q, p) ∉ resolveRecipients c msgs db) := by
  have hmem : (q, p) ∈ resolveRecipients c msgs db ↔
      ((q, p) ∈ db ∧ eligibleItem c msgs q p = true) := by
    unfold resolveRecipients
    exact List.mem_filter
  constructor
  · rw [hmem, eligibleItem_iff]
  · intro hdnc hin
    have h := (hmem.mp hin).2
    rw [eligibleItem_iff] at h
    rw [hdnc] at h
    exact Bool.noConfusion h.2.2.2.1

/-- C2 witness: a concrete DNC patient with a passing score is excluded from
a concrete campaign's recipient set. -/
theorem C2_witness :
    (⟨⟨7, QStatus.pending, Tier.warm, 90, 0⟩, ⟨7, true, some ['5'], some ['e']⟩⟩ :
        QueueItemState × PatientRec)
      ∉ resolveRecipients ⟨Channel.sms, none, 0⟩ []
          [(⟨7, QStatus.pending, Tier.warm, 90, 0⟩, ⟨7, true, some ['5'], some ['e']⟩)] :=
  (C2_eligibility ⟨Channel.sms, none, 0⟩ []
      [(⟨7, QStatus.pending, Tier.warm, 90, 0⟩, ⟨7, true, some ['5'], some ['e']⟩)]
      ⟨7, QStatus.pending, Tier.warm, 90, 0⟩ ⟨7, true, some ['5'], some ['e']⟩).2 rfl

/-- C3: the scenario snapshot — last appointment 8 months before the as-of
time, email only, 12 visits, no insurance, not DNC — scores 62
(35 recency + 20 email + 7 visits) with tier warm. -/
theorem C3_scenario :
    computeScore c3snap = 62 ∧
    rawScore c3snap = 35 + 20 + 7 ∧
    tierOf c3snap.months_since_last_appt = Tier.warm := by
  decide

/-- C4: the draft→sending transition happens at most once — submit succeeds
exactly on a draft campaign; a submit that succeeded leaves the campaign in
`sending`, so a second submit of it fails with `AlreadySending` and creates
no further messages; and the campaign page shows the Send Campaign button
exactly while the status is `"draft"`. -/
theorem C4_submit_once (r r2 : Nat) (camp camp' : CampaignState) :
    ((∃ c', submitCampaign r camp = .ok c') ↔ camp.status = .draft) ∧
    (submitCampaign r camp = .ok camp' →
      camp'.status = .sending ∧ camp'.messages_created = camp.messages_created + r ∧
      submitCampaign r2 camp' = .error .AlreadySending) ∧
    (∀ s : String, showSendButton s = true ↔ s = "draft") := by
  refine ⟨?_, ?_, fun s => by simp [showSendButton]⟩
  · unfold submitCampaign
    by_cases h : camp.status = .draft
    · simp [h]
    · simp [h]
  · intro hok
    unfold submitCampaign at hok
    by_cases h : camp.status = .draft
    · rw [if_pos h] at hok
      injection hok with h2
      subst h2
      refine ⟨rfl, rfl, ?_⟩
      unfold submitCampaign
      rw [if_neg]
      intro hx
      simp at hx
    · rw [if_neg h] at hok
      exact Except.noConfusion hok

/-- C4 witness: a concrete draft campaign submits once and the resulting
`sending` campaign rejects a second submit with `AlreadySending`, with no
additional messages created. -/
theorem C4_witness :
    (⟨CampStatus.sending, 3⟩ : CampaignState).status = CampStatus.sending ∧
    (⟨CampStatus.sending, 3⟩ : CampaignState).messages_created = 0 + 3 ∧
    submitCampaign 5 ⟨CampStatus.sending, 3⟩ = .error .AlreadySending :=
  (C4_submit_once 3 5 ⟨CampStatus.draft, 0⟩ ⟨CampStatus.sending, 3⟩).2.1 (by rfl)

/-- C6: `setStatus` succeeds exactly on the transitions pending→contacted,
contacted→responded, responded→booked, or any state→dead; on success the
item changes only by taking the new status; otherwise it fails with
`InvalidTransition` and returns no changed item; and the queue page's
dropdown offers every status. -/
theorem C6_setStatus_transitions (item : QueueItemState) (new : QStatus) :
    ((∃ item', setStatus item new = .ok item') ↔
      ((item.status = .pending ∧ new = .contacted)
        ∨ (item.status = .contacted ∧ new = .responded)
        ∨ (item.status = .responded ∧ new = .booked)
        ∨ new = .dead)) ∧
    (∀ item', setStatus item new = .ok item' → item' = { item with status := new }) ∧
    (¬((item.status = .pending ∧ new = .contacted)
        ∨ (item.status = .contacted ∧ new = .responded)
        ∨ (item.status = .responded ∧ new = .booked)
        ∨ new = .dead) →
      setStatus item new = .error .InvalidTransition) ∧
    (∀ s : QStatus, qstatusName s ∈ STATUSES) := by
  refine ⟨?_, ?_, ?_, fun s => by cases s <;> decide⟩
  · rw [← allowedTransition_iff]
    unfold setStatus
    by_cases h : allowedTransition item.status new = true
    · simp [h]
    · simp [h]
  · intro item' hok
    unfold setStatus at hok
    by_cases h : allowedTransition item.status new = true
    · rw [if_pos h] at hok
      injection hok with h2
      exact h2.symm
    · rw [if_neg h] at hok
      exact Except.noConfusion hok
  · intro hbad
    rw [← allowedTransition_iff] at hbad
    unfold setStatus
    rw [if_neg hbad]

/-- C6 witness: a concrete pending→booked request is rejected with
`InvalidTransition`. -/
theorem C6_witness :
    setStatus ⟨4, QStatus.pending, Tier.warm, 50, 0⟩ QStatus.booked
      = .error .InvalidTransition :=
  (C6_setStatus_transitions ⟨4, QStatus.pending, Tier.warm, 50, 0⟩ QStatus.booked).2.2.1
    (by decide)

/-- C7: campaign creation is validated before any state change — submission
produces an error (and never the `createCampaign` payload) exactly when the
name is blank after trimming, the message template is blank after trimming,
or the channel is email and the subject is blank after trimming; a blank
name yields the name error first. -/
theorem C7_validation (name : List Char) (channel : Channel) (tierFilter : List Char)
    (scoreMin : Int) (tpl subject : List Char) :
    ((∃ e, newCampaignSubmit name channel tierFilter scoreMin tpl subject = .error e) ↔
      (trimChars name = [] ∨ trimChars tpl = []
        ∨ (channel = .email ∧ trimChars subject = []))) ∧
    (trimChars name = [] →
      newCampaignSubmit name channel tierFilter scoreMin tpl subject
        = .error "Campaign name is required") ∧
    (∀ body, newCampaignSubmit name channel tierFilter scoreMin tpl subject = .ok body →
      trimChars name ≠ [] ∧ trimChars tpl ≠ []
        ∧ (channel = .email → trimChars subject ≠ [])) := by
  unfold newCampaignSubmit
  by_cases h1 : trimChars name = []
  · rw [if_pos h1]
    exact ⟨⟨fun _ => Or.inl h1, fun _ => ⟨_, rfl⟩⟩, fun _ => rfl,
      fun body hb => Except.noConfusion hb⟩
  · rw [if_neg h1]
    by_cases h2 : trimChars tpl = []
    · rw [if_pos h2]
      exact ⟨⟨fun _ => Or.inr (Or.inl h2), fun _ => ⟨_, rfl⟩⟩, fun h => absurd h h1,
        fun body hb => Except.noConfusion hb⟩
    · rw [if_neg h2]
      by_cases h3 : channel = .email ∧ trimChars subject = []
      · rw [if_pos h3]
        exact ⟨⟨fun _ => Or.inr (Or.inr h3), fun _ => ⟨_, rfl⟩⟩, fun h => absurd h h1,
          fun body hb => Except.noConfusion hb⟩
      · rw [if_neg h3]
        refine ⟨⟨fun he => ?_, fun hd => ?_⟩, fun h => absurd h h1,
          fun body _ => ⟨h1, h2, fun hemail hs => h3 ⟨hemail, hs⟩⟩⟩
        · obtain ⟨e, he⟩ := he
          exact Except.noConfusion he
        · rcases hd with h | h | h
          · exact absurd h h1
          · exact absurd h h2
          · exact absurd h h3

/-- C7 witness: a whitespace-only campaign name is rejected with the name
error before `createCampaign` is called. -/
theorem C7_witness :
    newCampaignSubmit [' '] Channel.sms [] 0 ['x'] []
      = .error "Campaign name is required" :=
  (C7_validation [' '] Channel.sms [] 0 ['x'] []).2.1 (by decide)

/-- C8: `fetchApi` returns the parsed JSON body exactly when the response is
ok; on a non-ok response it throws an error whose message is "API error ",
the status code, ": " and the body text — and never returns a value. -/
theorem C8_fetchApi_errors (res : HttpResponse) :
    (res.ok = true → fetchApi res = .ok res.jsonBody) ∧
    (res.ok = false →
      fetchApi res = .error ("API error " ++ Nat.repr res.statusCode ++ ": " ++ res.bodyText) ∧
      ∀ v, fetchApi res ≠ .ok v) := by
  cases hok : res.ok with
  | true =>
    refine ⟨fun _ => ?_, fun h => nomatch h⟩
    unfold fetchApi
    rw [if_pos hok]
  | false =>
    refine ⟨(fun h => nomatch h), fun _ => ?_⟩
    unfold fetchApi
    rw [if_neg (by rw [hok]; exact Bool.false_ne_true)]
    exact ⟨rfl, fun v hv => Except.noConfusion hv⟩

/-- C8 witness: a concrete 404 response yields the formatted error and no
value. -/
theorem C8_witness :
    fetchApi ⟨false, 404, "missing", "x"⟩ = .error "API error 404: missing" :=
  ((C8_fetchApi_errors ⟨false, 404, "missing", "x"⟩).2 rfl).1

/-- C9: the campaign detail page's rates are total — when `sent_count` is
positive, the delivery rate is round(100·(sent−failed)/sent) and the
response rate is round(100·responded/sent); when `sent_count` is zero, both
are exactly 0 and no division happens. -/
theorem C9_rates_total (c : CampaignCounts) :
    (0 < c.sent_count →
      deliveryRate c
          = jsRound (100 * ((c.sent_count : ℚ) - (c.failed_count : ℚ)) / (c.sent_count : ℚ)) ∧
      responseRate c = jsRound (100 * (c.responded_count : ℚ) / (c.sent_count : ℚ))) ∧
    (c.sent_count = 0 → deliveryRate c = 0 ∧ responseRate c = 0) := by
  constructor
  · intro h
    unfold deliveryRate responseRate
    rw [if_pos h, if_pos h]
    constructor <;> · congr 1; ring
  · intro h
    unfold deliveryRate responseRate
    rw [if_neg (by omega), if_neg (by omega)]
    exact ⟨rfl, rfl⟩

/-- C9 witness: rates of a concrete campaign with 8 sent, 3 failed, 2
responded. -/
theorem C9_witness :
    deliveryRate ⟨8, 3, 2⟩ = jsRound (100 * ((8 : ℚ) - (3 : ℚ)) / (8 : ℚ)) ∧
    responseRate ⟨8, 3, 2⟩ = jsRound (100 * (2 : ℚ) / (8 : ℚ)) :=
  (C9_rates_total ⟨8, 3, 2⟩).1 (by decide)

/-- C10: the agent form auto-confirms only the read-only sync task — the
submitted request has `confirmed = true` iff the selected task is
`sync_patients`; the write tasks `book_appointment` and `update_record` are
always submitted with `confirmed = false`. -/
theorem C10_autoConfirm (task : String) :
    ((agentHandleSubmit task).confirmed = true ↔ task = "sync_patients") ∧
    (agentHandleSubmit "book_appointment").confirmed = false ∧
    (agentHandleSubmit "update_record").confirmed = false ∧
    (agentHandleSubmit task).task_type = task := by
  refine ⟨?_, by decide, by decide, rfl⟩
  simp [agentHandleSubmit]

/-- C10 witness: the sync task is submitted auto-confirmed. -/
theorem C10_witness : (agentHandleSubmit "sync_patients").confirmed = true :=
  (C10_autoConfirm "sync_patients").1.mpr rfl
